import Mathlib

/-!
Shallow embedding of the revtrust business-rules engine
(`backend/app/utils/rule_operators.py`, `rule_evaluator.py`,
`rules_loader.py`, `business_rules_engine.py`) together with proofs
about its specification.

Python values flowing through the engine (JSON-ish deal fields, rule
thresholds) are modelled by the inductive type `Value`; Python `dict`s
holding deal data are association lists; Python exceptions are modelled
with `Except String`.  The impure parts of `datetime`
(`datetime.now()`, `fromisoformat`) are abstracted into a `Clock`
record that is threaded through the evaluator; no theorem below
depends on a particular clock.
-/

namespace RevTrust

mutual

/-- A Python value as it appears in deal records and rule conditions:
`None`, booleans, numbers (ints and floats collapsed to `ℚ`), strings
and lists.  `ValueList` is the mutually-defined list type so that all
recursion stays structural. -/
inductive Value : Type where
  | vNull : Value
  | vBool : Bool → Value
  | vNum : ℚ → Value
  | vStr : String → Value
  | vList : ValueList → Value

inductive ValueList : Type where
  | nil : ValueList
  | cons : Value → ValueList → ValueList

end

mutual

/-- Python `==` on values: numbers compare across int/float/bool
(`True == 1`), strings compare exactly, lists compare elementwise. -/
def pyEq : Value → Value → Bool
  | .vNull, .vNull => true
  | .vBool a, .vBool b => a == b
  | .vBool a, .vNum b => (if a then (1 : ℚ) else 0) == b
  | .vNum a, .vBool b => a == (if b then (1 : ℚ) else 0)
  | .vNum a, .vNum b => a == b
  | .vStr a, .vStr b => a == b
  | .vList a, .vList b => pyEqList a b
  | _, _ => false

def pyEqList : ValueList → ValueList → Bool
  | .nil, .nil => true
  | .cons a as, .cons b bs => pyEq a b && pyEqList as bs
  | _, _ => false

end

/-- Python truthiness of a value (`if value:`). -/
def truthy : Value → Bool
  | .vNull => false
  | .vBool b => b
  | .vNum q => q != 0
  | .vStr s => s != ""
  | .vList vs => match vs with | .nil => false | .cons _ _ => true

/-- Python `str()` of a value.  Only string stages are exercised by any
theorem below; the number/list renderings are a best-effort model. -/
def pyStr : Value → String
  | .vNull => "None"
  | .vBool b => if b then "True" else "False"
  | .vNum q => if q.den = 1 then toString q.num else toString q
  | .vStr s => s
  | .vList _ => "[...]"

/-- A deal record: a Python dict from field names to values. -/
abbrev Deal := List (String × Value)

/-- `deal.get(key)` - `Value.vNull` both for a missing key and for a key
explicitly mapped to `None`, exactly as Python conflates the two. -/
def pyGet (d : Deal) (k : String) : Value :=
  (d.lookup k).getD .vNull

/-- `deal.get(key, default)`. -/
def pyGetD (d : Deal) (k : String) (dflt : Value) : Value :=
  (d.lookup k).getD dflt

/-- Abstraction of the impure `datetime` library used by the date
operators: the current instant, ISO-8601 parsing and the `.date()`
projection, all over abstract `ℚ` timestamps (seconds). -/
structure Clock where
  nowTs : ℚ
  parseIso : String → Option ℚ
  dateOf : ℚ → Int

/-- A trivial clock used for concrete witnesses; no claim depends on
the clock's behaviour. -/
def clk0 : Clock :=
  { nowTs := 0, parseIso := fun _ => none, dateOf := fun _ => 0 }

/-- ASCII `str.lower()`, written over the character list so that it
evaluates structurally. -/
def strLower (s : String) : String := String.mk (s.data.map Char.toLower)

/-- `str.strip()`: drop whitespace from both ends. -/
def strTrim (s : String) : String :=
  String.mk (((s.data.dropWhile Char.isWhitespace).reverse.dropWhile
    Char.isWhitespace).reverse)

/-- Python `str.split(sep)` for a one-character separator, over
character lists (`''.split` is `['']`, and empty runs are kept). -/
def splitOnChar (sep : Char) : List Char → List (List Char)
  | [] => [[]]
  | c :: rest =>
      let r := splitOnChar sep rest
      if c = sep then [] :: r
      else
        match r with
        | w :: ws => (c :: w) :: ws
        | [] => [[c]]

def digitsToNat (cs : List Char) : Nat :=
  cs.foldl (fun n c => n * 10 + (c.toNat - '0'.toNat)) 0

/-- Model of Python `float(s)` on strings: optional sign, digits with an
optional fractional part. -/
def parseFloatStr (s : String) : Option ℚ :=
  let t := (strTrim s).data
  let sign : ℚ := if t.take 1 = ['-'] then -1 else 1
  let rest := if t.take 1 = ['-'] || t.take 1 = ['+'] then t.drop 1 else t
  match splitOnChar '.' rest with
  | [intPart] =>
      if intPart ≠ [] && intPart.all Char.isDigit then
        some (sign * (digitsToNat intPart : ℚ))
      else none
  | [intPart, fracPart] =>
      if (intPart ≠ [] || fracPart ≠ [])
          && intPart.all Char.isDigit && fracPart.all Char.isDigit then
        some (sign * ((digitsToNat intPart : ℚ)
          + (digitsToNat fracPart : ℚ) / ((10 : ℚ) ^ fracPart.length)))
      else none
  | _ => none

/-- Python `float(value)`: numbers pass through, bools coerce, strings
parse; anything else raises (callers catch and treat as failure). -/
def pyFloat : Value → Option ℚ
  | .vNum q => some q
  | .vBool b => some (if b then 1 else 0)
  | .vStr s => parseFloatStr s
  | _ => none

/-- A value usable as the right side of a Python numeric comparison
(numbers and bools; strings do not coerce there). -/
def pyNumCmp : Value → Option ℚ
  | .vNum q => some q
  | .vBool b => some (if b then 1 else 0)
  | _ => none

/-! Operators from `rule_operators.py`. -/

/-- `is_empty`: null, empty string, or whitespace only. -/
def is_empty : Value → Bool
  | .vNull => true
  | .vStr s => (strTrim s).length == 0
  | _ => false

/-- `is_null_or_zero`: null or a number equal to zero (Python bools are
ints, so `False` qualifies). -/
def is_null_or_zero : Value → Bool
  | .vNull => true
  | .vNum q => q == 0
  | .vBool b => !b
  | _ => false

/-- `is_past`: parse failures yield `False`; a non-string non-null value
is treated as a datetime, which for our value types raises. -/
def is_past (clk : Clock) : Value → Except String Bool
  | .vNull => .ok false
  | .vStr s =>
      match clk.parseIso (s.replace "Z" "+00:00") with
      | some ts => .ok (decide (clk.dateOf ts < clk.dateOf clk.nowTs))
      | none => .ok false
  | _ => .error "AttributeError: date"

/-- `older_than_days`. -/
def older_than_days (clk : Clock) (value days : Value) : Except String Bool :=
  match value with
  | .vNull => .ok false
  | .vStr s =>
      match clk.parseIso (s.replace "Z" "+00:00") with
      | none => .ok false
      | some ts =>
          match pyNumCmp days with
          | some d => .ok (decide (ts < clk.nowTs - d * 86400))
          | none => .error "TypeError: timedelta"
  | _ => .error "TypeError: comparison with datetime"

/-- `within_days`. -/
def within_days (clk : Clock) (value days : Value) : Except String Bool :=
  match value with
  | .vNull => .ok false
  | .vStr s =>
      match clk.parseIso (s.replace "Z" "+00:00") with
      | none => .ok false
      | some ts =>
          match pyNumCmp days with
          | some d => .ok (decide (clk.nowTs ≤ ts ∧ ts ≤ clk.nowTs + d * 86400))
          | none => .error "TypeError: timedelta"
  | _ => .error "TypeError: comparison with datetime"

/-- `more_than_days_away`. -/
def more_than_days_away (clk : Clock) (value days : Value) : Except String Bool :=
  match value with
  | .vNull => .ok false
  | .vStr s =>
      match clk.parseIso (s.replace "Z" "+00:00") with
      | none => .ok false
      | some ts =>
          match pyNumCmp days with
          | some d => .ok (decide (ts > clk.nowTs + d * 86400))
          | none => .error "TypeError: timedelta"
  | _ => .error "TypeError: comparison with datetime"

/-- `greater_than`: conversion or comparison failures are caught in the
source and yield `False`. -/
def greater_than (value threshold : Value) : Bool :=
  match value with
  | .vNull => false
  | v =>
      match pyFloat v, pyNumCmp threshold with
      | some a, some b => a > b
      | _, _ => false

/-- `less_than`. -/
def less_than (value threshold : Value) : Bool :=
  match value with
  | .vNull => false
  | v =>
      match pyFloat v, pyNumCmp threshold with
      | some a, some b => a < b
      | _, _ => false

/-- `equals`: case-insensitive trimmed comparison for strings, Python
`==` otherwise. -/
def equals (value target : Value) : Bool :=
  match value, target with
  | .vNull, .vNull => true
  | .vNull, _ => false
  | _, .vNull => false
  | .vStr a, .vStr b => strLower (strTrim a) == strLower (strTrim b)
  | v, t => pyEq v t

def valueListAny (p : Value → Bool) : ValueList → Bool
  | .nil => false
  | .cons v vs => p v || valueListAny p vs

/-- `in_list`: case-insensitive for string values; iterating a
non-iterable container raises. -/
def in_list (value values : Value) : Except String Bool :=
  match value with
  | .vNull => .ok false
  | .vStr s =>
      match values with
      | .vList vs =>
          .ok (valueListAny
            (fun v => match v with
              | .vStr t => strLower (strTrim t) == strLower (strTrim s)
              | _ => false) vs)
      | .vStr t =>
          .ok (t.data.any fun c =>
            strLower (strTrim (String.mk [c])) == strLower (strTrim s))
      | _ => .error "TypeError: argument is not iterable"
  | v =>
      match values with
      | .vList vs => .ok (valueListAny (fun t => pyEq v t) vs)
      | _ => .error "TypeError: argument is not a container"

/-- The operator registry `OPERATORS` of `rule_operators.py`. -/
def OPERATORS : List String :=
  ["is_empty", "is_null_or_zero", "is_past", "older_than_days", "within_days",
   "more_than_days_away", "greater_than", "less_than", "equals", "in"]

/-- The operators dispatched without a threshold. -/
def NO_THRESHOLD_OPS : List String := ["is_empty", "is_null_or_zero", "is_past"]

/-- `evaluate_operator`: unknown names raise; threshold-requiring
operators raise when the threshold is `None`. -/
def evaluate_operator (clk : Clock) (operator : String) (value threshold : Value) :
    Except String Bool :=
  if operator ∈ OPERATORS then
    if operator ∈ NO_THRESHOLD_OPS then
      match operator with
      | "is_empty" => .ok (is_empty value)
      | "is_null_or_zero" => .ok (is_null_or_zero value)
      | _ => is_past clk value
    else
      match threshold with
      | .vNull => .error ("Operator '" ++ operator ++ "' requires a threshold value")
      | _ =>
          match operator with
          | "older_than_days" => older_than_days clk value threshold
          | "within_days" => within_days clk value threshold
          | "more_than_days_away" => more_than_days_away clk value threshold
          | "greater_than" => .ok (greater_than value threshold)
          | "less_than" => .ok (less_than value threshold)
          | "equals" => .ok (equals value threshold)
          | _ => in_list value threshold
  else .error ("Unknown operator: " ++ operator)

/-! Condition trees (`rule_evaluator.py`).  A condition is a YAML/JSON
dict with optional keys `field`, `operator`, `value`, `all`, `any`;
`Option` marks key presence, and `CondList` keeps recursion
structural. -/

mutual

/-- A rule condition dict: `field`/`operator`/`value` for a leaf,
`all`/`any` holding sub-condition lists for compounds.  A dict may
carry several of these keys at once; `evaluate_condition` checks `all`
first, then `any`, then treats the dict as a leaf. -/
inductive Cond : Type where
  | node : Option String → Option String → Option Value →
      Option CondList → Option CondList → Cond

inductive CondList : Type where
  | nil : CondList
  | cons : Cond → CondList → CondList

end

def Cond.fieldKey : Cond → Option String
  | .node f _ _ _ _ => f

def Cond.operatorKey : Cond → Option String
  | .node _ op _ _ _ => op

def Cond.valueKey : Cond → Option Value
  | .node _ _ v _ _ => v

def Cond.allKey : Cond → Option CondList
  | .node _ _ _ aL _ => aL

def Cond.anyKey : Cond → Option CondList
  | .node _ _ _ _ nL => nL

/-- Convenience constructors for the shapes the YAML rules use. -/
def leafCond (field operator : String) : Cond :=
  .node (some field) (some operator) none none none

def leafCondV (field operator : String) (v : Value) : Cond :=
  .node (some field) (some operator) (some v) none none

def CondList.ofList : List Cond → CondList
  | [] => .nil
  | c :: cs => .cons c (CondList.ofList cs)

def allCond (cs : List Cond) : Cond :=
  .node none none none (some (CondList.ofList cs)) none

def anyCond (cs : List Cond) : Cond :=
  .node none none none none (some (CondList.ofList cs))

/-- Python truthiness of `dict.get` on a string-valued key: absent or
empty means falsy. -/
def truthyOptStr : Option String → Bool
  | some s => s != ""
  | none => false

/-- `str.capitalize()`: first character upper-cased, the rest
lower-cased. -/
def capitalizeWord (w : String) : String :=
  match w.toList with
  | [] => ""
  | c :: cs => String.mk (c.toUpper :: cs.map Char.toLower)

/-- The snake_case → camelCase conversion inlined in
`evaluate_condition` and `_get_field_value`:
`''.join(word.capitalize() if i > 0 else word for i, word in
enumerate(field.split('_')))`. -/
def camelCase (f : String) : String :=
  match (splitOnChar '_' f.data).map String.mk with
  | [] => ""
  | w :: ws => w ++ String.join (ws.map capitalizeWord)

/-- The field lookup inlined in `evaluate_condition`: take the
snake_case key; when that reads as `None` and the name contains an
underscore, fall back to the camelCase key. -/
def resolveFieldValue (d : Deal) (field : String) : Value :=
  match pyGet d field with
  | .vNull => if field.toList.contains '_' then pyGet d (camelCase field) else .vNull
  | v => v

/-- `_get_field_value`, the identical lookup used when building a
violation's `current_value`. -/
def get_field_value (d : Deal) (field_name : String) : Value :=
  match pyGet d field_name with
  | .vNull =>
      if field_name.toList.contains '_' then pyGet d (camelCase field_name) else .vNull
  | v => v

mutual

/-- `RuleEvaluator.evaluate_condition`: compound `all` first, then
`any`, then a leaf; a leaf with a falsy `field` or `operator` raises. -/
def evaluate_condition (clk : Clock) (c : Cond) (d : Deal) : Except String Bool :=
  match c with
  | .node f op v aL nL =>
      match aL with
      | some subs => evalAllList clk subs d
      | none =>
          match nL with
          | some subs => evalAnyList clk subs d
          | none =>
              if truthyOptStr f && truthyOptStr op then
                evaluate_operator clk (op.getD "") (resolveFieldValue d (f.getD ""))
                  (v.getD .vNull)
              else .error "Condition must have field and operator"

/-- Python `all(...)` over a generator: short-circuits on the first
`False`, propagates the first exception encountered. -/
def evalAllList (clk : Clock) (cs : CondList) (d : Deal) : Except String Bool :=
  match cs with
  | .nil => .ok true
  | .cons c rest => do
      let b ← evaluate_condition clk c d
      if b then evalAllList clk rest d else pure false

/-- Python `any(...)` over a generator. -/
def evalAnyList (clk : Clock) (cs : CondList) (d : Deal) : Except String Bool :=
  match cs with
  | .nil => .ok false
  | .cons c rest => do
      let b ← evaluate_condition clk c d
      if b then pure true else evalAnyList clk rest d

end

/-- `BusinessRule` (`rules_loader.py`). -/
structure BusinessRule where
  id : String
  name : String
  category : String
  severity : String
  description : String
  condition : Cond
  message : String
  remediation : String
  remediation_owner : String
  automatable : Bool
  applicable_stages : List String := []
  priority : Int := 0
  enabled : Bool := true
  scope : String := "global"
  user_id : Option String := none
  org_id : Option String := none

/-- `Violation` (`rule_evaluator.py`). -/
structure Violation where
  rule_id : String
  rule_name : String
  category : String
  severity : String
  message : String
  field_name : Option String
  current_value : Option String
  expected_value : Option String
  remediation_action : String
  remediation_owner : String
  automatable : Bool

/-- `_extract_field_name`: the `field` key if present, else the first
`all` child, else the first `any` child. -/
def extract_field_name : Cond → Option String
  | .node f _ _ aL nL =>
      match f with
      | some s => some s
      | none =>
          match aL with
          | some (.cons c1 _) => extract_field_name c1
          | _ =>
              match nL with
              | some (.cons c1 _) => extract_field_name c1
              | _ => none

def valueListToList : ValueList → List Value
  | .nil => []
  | .cons v vs => v :: valueListToList vs

/-- `_extract_expected_value`. -/
def extract_expected_value (c : Cond) : Option String :=
  match c with
  | .node _ _ (some v) _ _ =>
      match v with
      | .vList vs => some (String.intercalate ", " ((valueListToList vs).map pyStr))
      | _ => some (pyStr v)
  | _ => none

/-- The body of `evaluate_rule` after the stage-applicability gate:
evaluate the condition, and on violation assemble the `Violation`
record. -/
def evaluateRulePostGate (clk : Clock) (rule : BusinessRule) (d : Deal) :
    Except String (Option Violation) := do
  let is_violated ← evaluate_condition clk rule.condition d
  if is_violated then
    let fieldName := extract_field_name rule.condition
    let currentValue : Option String :=
      match fieldName with
      | some fn =>
          if fn == "" then none
          else
            match get_field_value d fn with
            | .vNull => none
            | v => some (pyStr v)
      | none => none
    pure (some
      { rule_id := rule.id
        rule_name := rule.name
        category := rule.category
        severity := rule.severity
        message := rule.message
        field_name := fieldName
        current_value := currentValue
        expected_value := extract_expected_value rule.condition
        remediation_action := rule.remediation
        remediation_owner := rule.remediation_owner
        automatable := rule.automatable })
  else
    pure none

/-- The closed-stage names checked (case-insensitively) by the stage
gate. -/
def closedStageNames : List String :=
  ["closed won", "closed lost", "closed-won", "closed-lost"]

/-- The `all_except_closed` sentinel. -/
def sentinelAllExceptClosed : String := "all_except_closed"

/-- The `try:` body of `evaluate_rule`: the stage-applicability gate
followed by condition evaluation.  `deal.get('stage', '')` is used
as-is: a non-string stage (including an explicit `None`) raises at
`.lower()`. -/
def evaluateRuleCore (clk : Clock) (rule : BusinessRule) (d : Deal) :
    Except String (Option Violation) :=
  if rule.applicable_stages ≠ [] then
    match pyGetD d "stage" (.vStr "") with
    | .vStr s =>
        let isClosed := strLower s ∈ closedStageNames
        if sentinelAllExceptClosed ∈ rule.applicable_stages ∧ isClosed then
          .ok none
        else if s ∉ rule.applicable_stages ∧
            sentinelAllExceptClosed ∉ rule.applicable_stages then
          .ok none
        else evaluateRulePostGate clk rule d
    | _ => .error "AttributeError: lower"
  else evaluateRulePostGate clk rule d

/-- The `except Exception` boundary: a raise becomes `None`. -/
def exceptToNone (r : Except String (Option Violation)) : Option Violation :=
  match r with
  | .ok v => v
  | .error _ => none

/-- `evaluate_rule`: the `try`/`except` wrapper - any raise inside the
body is swallowed and turned into `None`. -/
def evaluate_rule (clk : Clock) (rule : BusinessRule) (d : Deal) : Option Violation :=
  exceptToNone (evaluateRuleCore clk rule d)

/-- The loop body of `evaluate_all_rules`: append the violation when
one was found. -/
def collectViolation (acc : List Violation) (v : Option Violation) : List Violation :=
  match v with
  | some v => acc ++ [v]
  | none => acc

/-- `evaluate_all_rules`: the accumulating loop over the rule list. -/
def evaluate_all_rules (clk : Clock) (rules : List BusinessRule) (d : Deal) :
    List Violation :=
  rules.foldl (fun acc rule => collectViolation acc (evaluate_rule clk rule d)) []

/-! `rules_loader.py`: stage filtering and the contextual loader's
override machinery. -/

/-- `RulesLoader.get_rules_for_stage`: keeps a rule when it has no
stages, when the *stripped* string form of the stage is a literal
member, or when the `all_except_closed` sentinel applies.  Note the
`str(stage).strip()` coercion, which `evaluate_rule` does not do. -/
def stageFilterKeep (stageStr : String) (rule : BusinessRule) : Bool :=
  rule.applicable_stages.isEmpty
    || rule.applicable_stages.contains stageStr
    || (rule.applicable_stages.contains sentinelAllExceptClosed
          && !(closedStageNames.contains (strLower stageStr)))

def get_rules_for_stage (rules : List BusinessRule) (stage : Value) : List BusinessRule :=
  let stageStr := match stage with | .vNull => "" | v => strTrim (pyStr v)
  rules.filter (stageFilterKeep stageStr)

/-- A `GlobalRuleOverride` database row as read by `load_context`. -/
structure OverrideRow where
  globalRuleId : String
  enabled : Bool
  thresholdOverrides : Option (List (String × Value))

/-- The per-rule override record stored in
`ContextualRulesLoader.overrides`. -/
structure OverrideData where
  enabled : Bool
  threshold_overrides : Option (List (String × Value))
  source : String

/-- One pass of `load_context`'s override loop: each row writes its
rule id into the dict (modelled as a function), so a later row with
the same id wins. -/
def insertOverrides (m : String → Option OverrideData) (rows : List OverrideRow)
    (src : String) : String → Option OverrideData :=
  rows.foldl
    (fun m row => fun k =>
      if k = row.globalRuleId then
        some { enabled := row.enabled, threshold_overrides := row.thresholdOverrides,
               source := src }
      else m k)
    m

/-- `ContextualRulesLoader.load_context`, restricted to the overrides
dict it builds: org rows are written first, then user rows on top of
them; with neither id the dict stays empty.  `orgRowsFor`/`userRowsFor`
stand for the database queries filtered by org and user id. -/
def load_context (userId orgId : Option String)
    (orgRowsFor userRowsFor : String → List OverrideRow) :
    String → Option OverrideData :=
  if userId = none ∧ orgId = none then fun _ => none
  else
    let m : String → Option OverrideData := fun _ => none
    let m := match orgId with
      | some oid => insertOverrides m (orgRowsFor oid) "org"
      | none => m
    match userId with
    | some uid => insertOverrides m (userRowsFor uid) "user"
    | none => m

mutual

/-- `_apply_overrides_to_condition`: replace an existing `value` key
when the overrides dict carries one, then recurse through `all` and
`any`.  The source deep-copies before mutating, so the pure rebuild
here is its exact effect. -/
def apply_overrides_to_condition (c : Cond) (overrides : List (String × Value)) : Cond :=
  match c with
  | .node f op v aL nL =>
      let v2 := match overrides.lookup "value", v with
        | some w, some _ => some w
        | _, _ => v
      let aL2 := match aL with
        | some cs => some (applyOverridesToCondList cs overrides)
        | none => none
      let nL2 := match nL with
        | some cs => some (applyOverridesToCondList cs overrides)
        | none => none
      .node f op v2 aL2 nL2

def applyOverridesToCondList (cs : CondList) (overrides : List (String × Value)) :
    CondList :=
  match cs with
  | .nil => .nil
  | .cons c rest =>
      .cons (apply_overrides_to_condition c overrides)
        (applyOverridesToCondList rest overrides)

end

/-- `_apply_threshold_overrides`: a fresh `BusinessRule` carrying the
rewritten condition; every other field is copied unchanged. -/
def apply_threshold_overrides (rule : BusinessRule)
    (overrides : List (String × Value)) : BusinessRule :=
  { rule with condition := apply_overrides_to_condition rule.condition overrides }

/-- `ContextualRulesLoader.get_effective_rules`: global rules with
overrides applied (disabled ones dropped, truthy threshold overrides
rewritten), followed by the custom rules. -/
def get_effective_rules (globalRules : List BusinessRule)
    (overrides : String → Option OverrideData)
    (customRules : List BusinessRule) : List BusinessRule :=
  (globalRules.filterMap fun rule =>
    match overrides rule.id with
    | some ov =>
        if ov.enabled = false then none
        else
          match ov.threshold_overrides with
          | some (kv :: kvs) => some (apply_threshold_overrides rule (kv :: kvs))
          | _ => some rule
    | none => some rule)
    ++ customRules

/-! `business_rules_engine.py`. -/

/-- The per-deal severity summary of `_generate_violation_summary`.
The source seeds a dict whose keys are `critical`, `warning`, `info`
and `total`, then bumps `summary[severity.lower()]` when that key
exists - so a severity literally named `total` would bump `total`. -/
structure Summary where
  critical : Nat
  warning : Nat
  info : Nat
  total : Nat

def generate_violation_summary (violations : List Violation) : Summary :=
  violations.foldl
    (fun s v =>
      match strLower v.severity with
      | "critical" => { s with critical := s.critical + 1 }
      | "warning" => { s with warning := s.warning + 1 }
      | "info" => { s with info := s.info + 1 }
      | "total" => { s with total := s.total + 1 }
      | _ => s)
    { critical := 0, warning := 0, info := 0, total := violations.length }

/-- `BusinessRulesEngine.analyze_deal`: pre-filter by stage when the
deal has a truthy `stage`, then run `evaluate_all_rules`.  `rules`
stands for the loader's `get_all_rules()`. -/
def analyze_deal (clk : Clock) (rules : List BusinessRule) (d : Deal) :
    List Violation × Summary :=
  let dealStage := pyGet d "stage"
  let applicableRules :=
    if truthy dealStage then get_rules_for_stage rules dealStage else rules
  let violations := evaluate_all_rules clk applicableRules d
  (violations, generate_violation_summary violations)

/-- Round an integer out of a rational, ties to even - the behaviour
of Python's `round`. -/
def roundHalfEven (q : ℚ) : Int :=
  let f := ⌊q⌋
  let r := q - f
  if r < 1 / 2 then f
  else if 1 / 2 < r then f + 1
  else if f % 2 = 0 then f else f + 1

/-- `round(x, 2)`. -/
def round2 (q : ℚ) : ℚ := (roundHalfEven (q * 100) : ℚ) / 100

/-- The health-score computation at the end of `analyze_deals`,
including the final two-decimal rounding. -/
def healthScore (totalDeals dealsWithIssues totalCritical totalWarnings totalInfo : Nat) :
    ℚ :=
  if totalDeals > 0 then
    let cleanDealsPct : ℚ :=
      ((totalDeals : ℚ) - (dealsWithIssues : ℚ)) / (totalDeals : ℚ) * 100
    let severityPenalty : ℚ :=
      (totalCritical : ℚ) * 5 + (totalWarnings : ℚ) * 2 + (totalInfo : ℚ) * (1 / 2)
    let maxPenalty : ℚ := (totalDeals : ℚ) * 10
    let penaltyPct : ℚ :=
      if maxPenalty > 0 then min (severityPenalty / maxPenalty * 100) 100 else 0
    round2 (max 0 (cleanDealsPct - penaltyPct))
  else 0

/-- Python `a or b`: the first truthy operand, else the second. -/
def pyOrV (a b : Value) : Value := if truthy a then a else b

/-- A violation annotated with its deal's id and name, as
`analyze_deals` attaches them. -/
structure TaggedViolation where
  deal_id : Value
  deal_name : Value
  violation : Violation

/-- The fields of the `analyze_deals` result dict that the claims are
about (the two grouping projections of the violations list are
omitted). -/
structure AnalysisResult where
  total_deals : Nat
  deals_with_issues : Nat
  health_score : ℚ
  total_critical : Nat
  total_warnings : Nat
  total_info : Nat
  violations : List TaggedViolation

/-- `BusinessRulesEngine.analyze_deals`: analyze every deal,
accumulate the tagged violations and the pipeline-wide severity
totals, then compute the health score. -/
def analyze_deals (clk : Clock) (rules : List BusinessRule) (deals : List Deal) :
    AnalysisResult :=
  let acc := deals.foldl
    (fun (acc : List TaggedViolation × Nat × Nat × Nat × Nat) deal =>
      let (allV, dwv, tc, tw, ti) := acc
      let (violations, summary) := analyze_deal clk rules deal
      let (dwv2, tc2, tw2, ti2) :=
        if violations.isEmpty then (dwv, tc, tw, ti)
        else (dwv + 1, tc + summary.critical, tw + summary.warning, ti + summary.info)
      let tagged := violations.map fun v =>
        { deal_id := pyOrV (pyGet deal "deal_id")
            (pyOrV (pyGet deal "id") (pyGet deal "external_id"))
          deal_name := pyGet deal "deal_name"
          violation := v }
      (allV ++ tagged, dwv2, tc2, tw2, ti2))
    ([], 0, 0, 0, 0)
  { total_deals := deals.length
    deals_with_issues := acc.2.1
    health_score := healthScore deals.length acc.2.1 acc.2.2.1 acc.2.2.2.1 acc.2.2.2.2
    total_critical := acc.2.2.1
    total_warnings := acc.2.2.2.1
    total_info := acc.2.2.2.2
    violations := acc.1 }

/-! Theorems. -/

/-- `healthScore` written as the spec's closed formula. -/
theorem healthScore_eq (T I c w i : Nat) :
    healthScore T I c w i =
      if T = 0 then 0
      else
        round2 (max 0
          (((T : ℚ) - (I : ℚ)) / (T : ℚ) * 100
            - min (((c : ℚ) * 5 + (w : ℚ) * 2 + (i : ℚ) * (1 / 2))
                / ((T : ℚ) * 10) * 100) 100)) := by
  unfold healthScore
  rcases Nat.eq_zero_or_pos T with hT | hT
  · simp [hT]
  · have hT0 : (0 : ℚ) < (T : ℚ) * 10 := by positivity
    have hne : T ≠ 0 := Nat.pos_iff_ne_zero.mp hT
    simp [hT, hne, hT0]

/-- The WARNING rule of the concrete scenario: fires when `amount` is
null or zero. -/
def warnRuleC1 : BusinessRule :=
  { id := "zero_amount", name := "Zero amount", category := "DATA_QUALITY",
    severity := "WARNING", description := "",
    condition := leafCond "amount" "is_null_or_zero",
    message := "Amount is missing or zero", remediation := "",
    remediation_owner := "Rep", automatable := false }

/-- The clean deal of the concrete scenario (non-zero amount). -/
def dealCleanC1 : Deal := [("amount", .vStr "50000")]

/-- A deal violating `warnRuleC1` (no amount at all). -/
def dealWarnC1 : Deal := []

/-- C1: for every deal list, `analyze_deals` computes `health_score`
by exactly the specified formula - `clean_pct` from the clean-deal
ratio, the `5/2/0.5`-weighted severity penalty over pipeline-wide
totals normalised by `total_deals × 10` and clamped at `100`,
`max 0 (clean_pct − penalty_pct)` rounded to two decimals, and `0`
when there are no deals; in particular 4 deals of which 3 carry one
WARNING violation each score exactly `10.0`. -/
theorem c1_health_score_formula :
    (∀ (clk : Clock) (rules : List BusinessRule) (deals : List Deal),
      let R := analyze_deals clk rules deals
      R.health_score =
        if R.total_deals = 0 then 0
        else
          round2 (max 0
            (((R.total_deals : ℚ) - (R.deals_with_issues : ℚ))
                / (R.total_deals : ℚ) * 100
              - min (((R.total_critical : ℚ) * 5 + (R.total_warnings : ℚ) * 2
                    + (R.total_info : ℚ) * (1 / 2))
                  / ((R.total_deals : ℚ) * 10) * 100) 100)))
    ∧ (analyze_deals clk0 [warnRuleC1]
        [dealCleanC1, dealWarnC1, dealWarnC1, dealWarnC1]).health_score = 10 := by
  constructor
  · intro clk rules deals
    exact healthScore_eq _ _ _ _ _
  · show healthScore 4 3 0 3 0 = 10
    norm_num [healthScore, round2, roundHalfEven]

/-- C6: compound-condition laws of `evaluate_condition`: an empty
`any` is `False`, an empty `all` is `True`, and a two-child `all`
is the (short-circuiting, exception-propagating) conjunction of its
children's evaluations. -/
theorem c6_compound_condition_laws :
    (∀ (clk : Clock) (d : Deal),
        evaluate_condition clk (anyCond []) d = .ok false
      ∧ evaluate_condition clk (allCond []) d = .ok true)
    ∧ (∀ (clk : Clock) (d : Deal) (A B : Cond),
        evaluate_condition clk (allCond [A, B]) d =
          (evaluate_condition clk A d >>= fun a =>
            if a then evaluate_condition clk B d else pure false)) := by
  refine ⟨fun clk d => ⟨rfl, rfl⟩, fun clk d A B => ?_⟩
  show evalAllList clk (.cons A (.cons B .nil)) d = _
  rcases hA : evaluate_condition clk A d with e | a
  · simp [evalAllList, hA, Bind.bind, Except.bind]
  · rcases hB : evaluate_condition clk B d with e | b
    · cases a <;> simp [evalAllList, hA, hB, Bind.bind, Except.bind, pure, Except.pure]
    · cases a <;> cases b <;>
        simp [evalAllList, hA, hB, Bind.bind, Except.bind, pure, Except.pure]

/-- C8: configuration errors raise at the operator/condition layer: an
operator name outside the ten-operator registry raises; a
threshold-requiring operator (any registry operator except `is_empty`,
`is_null_or_zero`, `is_past`) raises on a `None` threshold; and a leaf
condition carrying neither `field` nor `operator` raises instead of
evaluating false. -/
theorem c8_config_errors_raise :
    (∀ (clk : Clock) (op : String) (v t : Value),
        op ∉ OPERATORS → ∃ e, evaluate_operator clk op v t = .error e)
    ∧ (∀ (clk : Clock) (op : String) (v : Value),
        op ∈ OPERATORS → op ∉ NO_THRESHOLD_OPS →
        ∃ e, evaluate_operator clk op v .vNull = .error e)
    ∧ (∀ (clk : Clock) (v : Option Value) (d : Deal),
        ∃ e, evaluate_condition clk (Cond.node none none v none none) d = .error e) := by
  refine ⟨fun clk op v t h => ⟨"Unknown operator: " ++ op, ?_⟩,
    fun clk op v h1 h2 => ⟨"Operator '" ++ op ++ "' requires a threshold value", ?_⟩,
    fun clk v d => ⟨"Condition must have field and operator", rfl⟩⟩
  · simp [evaluate_operator, h]
  · simp [evaluate_operator, h1, h2]

/-- Witness for `c8_config_errors_raise` at the operator name
`is_emptyy`, the thresholdless `greater_than`, and a bare leaf. -/
theorem c8_config_errors_raise_witness :
    (∃ e, evaluate_operator clk0 "is_emptyy" .vNull .vNull = .error e)
    ∧ (∃ e, evaluate_operator clk0 "greater_than" .vNull .vNull = .error e)
    ∧ (∃ e, evaluate_condition clk0 (Cond.node none none none none none) [] = .error e) :=
  ⟨c8_config_errors_raise.1 clk0 "is_emptyy" .vNull .vNull (by decide),
   c8_config_errors_raise.2.1 clk0 "greater_than" .vNull (by decide) (by decide),
   c8_config_errors_raise.2.2 clk0 none []⟩

/-- The violation-collecting loop of `evaluate_all_rules` is
`filterMap` over the rule list. -/
theorem foldl_collect_eq_filterMap (f : BusinessRule → Option Violation) :
    ∀ (l : List BusinessRule) (acc : List Violation),
      l.foldl (fun acc x => collectViolation acc (f x)) acc = acc ++ l.filterMap f
  | [], acc => by simp
  | x :: l, acc => by
      rw [List.foldl_cons, foldl_collect_eq_filterMap f l, List.filterMap_cons]
      cases hfx : f x <;> simp [collectViolation, hfx]

/-- C7: `evaluate_rule` is total at its boundary - every exception in
the evaluation of a (rule, deal) pair is caught and becomes `none` -
and `evaluate_all_rules` therefore returns exactly the violations of
the non-failing pairs, in rule-list order. -/
theorem c7_rule_evaluation_total :
    (∀ (clk : Clock) (rule : BusinessRule) (d : Deal) (e : String),
        evaluateRuleCore clk rule d = .error e → evaluate_rule clk rule d = none)
    ∧ (∀ (clk : Clock) (rules : List BusinessRule) (d : Deal),
        evaluate_all_rules clk rules d =
          rules.filterMap fun rule => evaluate_rule clk rule d) := by
  constructor
  · intro clk rule d e h
    simp [evaluate_rule, h, exceptToNone]
  · intro clk rules d
    unfold evaluate_all_rules
    have h := foldl_collect_eq_filterMap (fun rule => evaluate_rule clk rule d) rules []
    rw [List.nil_append] at h
    exact h

/-- A rule whose condition raises (bare leaf), used to witness the
exception boundary. -/
def badRuleC7 : BusinessRule :=
  { id := "bad", name := "bad", category := "X", severity := "WARNING",
    description := "", condition := Cond.node none none none none none,
    message := "", remediation := "", remediation_owner := "Rep",
    automatable := false }

/-- Witness for `c7_rule_evaluation_total`: a raising rule yields
`none` and the batch still completes. -/
theorem c7_rule_evaluation_total_witness :
    evaluate_rule clk0 badRuleC7 [] = none
    ∧ evaluate_all_rules clk0 [badRuleC7] [] =
        [badRuleC7].filterMap fun rule => evaluate_rule clk0 rule [] :=
  ⟨c7_rule_evaluation_total.1 clk0 badRuleC7 []
      "Condition must have field and operator" rfl,
   c7_rule_evaluation_total.2 clk0 [badRuleC7] []⟩

/-- C10: the snake_case → camelCase fallback fires not only for an
absent key but also for a key explicitly mapped to `None` (Python's
`dict.get` conflates the two), in both `_get_field_value` and the
lookup inlined in `evaluate_condition`; and it is attempted only for
field names containing an underscore. -/
theorem c10_field_lookup_fallback :
    (∀ (d : Deal) (v : Value),
        pyGet d "close_date" = .vNull → pyGet d "closeDate" = v →
        get_field_value d "close_date" = v ∧ resolveFieldValue d "close_date" = v)
    ∧ (∀ (d : Deal) (f : String), '_' ∉ f.toList →
        get_field_value d f = pyGet d f ∧ resolveFieldValue d f = pyGet d f)
    ∧ (∀ (clk : Clock) (d : Deal) (v : Value),
        pyGet d "close_date" = .vNull → pyGet d "closeDate" = v →
        evaluate_condition clk (leafCond "close_date" "is_empty") d =
          .ok (is_empty v)) := by
  have hc : camelCase "close_date" = "closeDate" := by decide
  have hu : "close_date".toList.contains '_' = true := by decide
  refine ⟨fun d v h1 h2 => ⟨?_, ?_⟩, fun d f hf => ⟨?_, ?_⟩, fun clk d v h1 h2 => ?_⟩
  · simp [get_field_value, h1, hu, hc, h2]
  · simp [resolveFieldValue, h1, hu, hc, h2]
  · unfold get_field_value
    cases hg : pyGet d f with
    | vNull =>
        simp [hg]
        intro hmem
        exact absurd hmem hf
    | _ => simp
  · unfold resolveFieldValue
    cases hg : pyGet d f with
    | vNull =>
        simp [hg]
        intro hmem
        exact absurd hmem hf
    | _ => simp
  · simp [evaluate_condition, leafCond, truthyOptStr, resolveFieldValue, h1, hu, hc, h2,
      evaluate_operator, OPERATORS, NO_THRESHOLD_OPS]

/-- Witness for `c10_field_lookup_fallback` on a concrete deal with
`close_date = None` and a camelCase twin. -/
theorem c10_field_lookup_fallback_witness :
    get_field_value [("close_date", .vNull), ("closeDate", .vStr "2031-01-01")]
        "close_date" = .vStr "2031-01-01"
    ∧ get_field_value [("amount", .vStr "5")] "amount"
        = pyGet [("amount", .vStr "5")] "amount"
    ∧ evaluate_condition clk0 (leafCond "close_date" "is_empty")
        [("close_date", .vNull), ("closeDate", .vStr "2031-01-01")]
        = .ok (is_empty (.vStr "2031-01-01")) :=
  ⟨(c10_field_lookup_fallback.1 [("close_date", .vNull), ("closeDate", .vStr "2031-01-01")]
      (.vStr "2031-01-01") rfl rfl).1,
   (c10_field_lookup_fallback.2.1 [("amount", .vStr "5")] "amount" (by decide)).1,
   c10_field_lookup_fallback.2.2 clk0
      [("close_date", .vNull), ("closeDate", .vStr "2031-01-01")]
      (.vStr "2031-01-01") rfl rfl⟩

/-- `roundHalfEven` never exceeds the floor plus one. -/
theorem roundHalfEven_le_floor_add_one (q : ℚ) : roundHalfEven q ≤ ⌊q⌋ + 1 := by
  simp only [roundHalfEven]
  split_ifs <;> omega

/-- `roundHalfEven` is at least the floor. -/
theorem floor_le_roundHalfEven (q : ℚ) : ⌊q⌋ ≤ roundHalfEven q := by
  simp only [roundHalfEven]
  split_ifs <;> omega

/-- Ties-to-even rounding is monotone. -/
theorem roundHalfEven_mono {a b : ℚ} (h : a ≤ b) :
    roundHalfEven a ≤ roundHalfEven b := by
  have hf : ⌊a⌋ ≤ ⌊b⌋ := Int.floor_mono h
  rcases eq_or_lt_of_le hf with heq | hlt
  · have hr : a - (⌊a⌋ : ℚ) ≤ b - (⌊b⌋ : ℚ) := by
      rw [← heq]
      exact sub_le_sub_right h _
    simp only [roundHalfEven]
    rw [← heq] at hr ⊢
    split_ifs <;> first | omega | linarith
  · have h1 := roundHalfEven_le_floor_add_one a
    have h2 := floor_le_roundHalfEven b
    omega

/-- Two-decimal rounding is monotone. -/
theorem round2_mono {a b : ℚ} (h : a ≤ b) : round2 a ≤ round2 b := by
  unfold round2
  have hm := roundHalfEven_mono (mul_le_mul_of_nonneg_right h (by norm_num : (0:ℚ) ≤ 100))
  have : ((roundHalfEven (a * 100) : ℚ)) ≤ ((roundHalfEven (b * 100) : ℚ)) := by
    exact_mod_cast hm
  exact (div_le_div_right (by norm_num : (0:ℚ) < 100)).mpr this

/-- C9: for a fixed number of deals, the health score never increases
when `deals_with_issues` or any of the pipeline-wide critical, warning
or info totals increases. -/
theorem c9_health_score_monotone (T I I2 c c2 w w2 i i2 : Nat)
    (hI : I ≤ I2) (hc : c ≤ c2) (hw : w ≤ w2) (hi : i ≤ i2) :
    healthScore T I2 c2 w2 i2 ≤ healthScore T I c w i := by
  rw [healthScore_eq, healthScore_eq]
  rcases Nat.eq_zero_or_pos T with hT | hT
  · simp [hT]
  · have hTne : T ≠ 0 := Nat.pos_iff_ne_zero.mp hT
    have hTpos : (0 : ℚ) < (T : ℚ) := by exact_mod_cast hT
    simp only [hTne, if_false]
    apply round2_mono
    apply max_le_max le_rfl
    apply sub_le_sub
    · have hsub : ((T : ℚ) - (I2 : ℚ)) ≤ ((T : ℚ) - (I : ℚ)) :=
        sub_le_sub_left (by exact_mod_cast hI) _
      exact mul_le_mul_of_nonneg_right ((div_le_div_right hTpos).mpr hsub) (by norm_num)
    · apply min_le_min _ le_rfl
      have hP : (0 : ℚ) < (T : ℚ) * 10 := by positivity
      apply mul_le_mul_of_nonneg_right _ (by norm_num : (0:ℚ) ≤ 100)
      apply (div_le_div_right hP).mpr
      have h5 : ((c : ℚ)) * 5 ≤ ((c2 : ℚ)) * 5 :=
        mul_le_mul_of_nonneg_right (by exact_mod_cast hc) (by norm_num)
      have h2 : ((w : ℚ)) * 2 ≤ ((w2 : ℚ)) * 2 :=
        mul_le_mul_of_nonneg_right (by exact_mod_cast hw) (by norm_num)
      have hhalf : ((i : ℚ)) * (1 / 2) ≤ ((i2 : ℚ)) * (1 / 2) :=
        mul_le_mul_of_nonneg_right (by exact_mod_cast hi) (by norm_num)
      linarith

/-- Witness for `c9_health_score_monotone`: adding one critical
violation (and one dirtied deal) to a clean 4-deal pipeline lowers the
score. -/
theorem c9_health_score_monotone_witness :
    healthScore 4 1 1 0 0 ≤ healthScore 4 0 0 0 0 :=
  c9_health_score_monotone 4 0 1 0 1 0 0 0 0 (by decide) (by decide) (by decide)
    (by decide)

/-- Formalisation of the spec's wording of the stage read (for
comparison with the code): "the deal's `stage` (coerced to string;
missing/None stage yields empty string)". -/
def specStageString (d : Deal) : String :=
  match pyGet d "stage" with
  | .vNull => ""
  | v => pyStr v

/-- Formalisation of the spec's wording of the whole stage gate (for
comparison with the code): read the stage via `specStageString`, skip
on the closed stages under the sentinel, otherwise require literal
membership, and on passing proceed to condition evaluation. -/
def specEvaluateRule (clk : Clock) (rule : BusinessRule) (d : Deal) : Option Violation :=
  if rule.applicable_stages ≠ [] then
    let s := specStageString d
    if sentinelAllExceptClosed ∈ rule.applicable_stages
        ∧ strLower s ∈ closedStageNames then none
    else if s ∉ rule.applicable_stages
        ∧ sentinelAllExceptClosed ∉ rule.applicable_stages then none
    else exceptToNone (evaluateRulePostGate clk rule d)
  else exceptToNone (evaluateRulePostGate clk rule d)

/-- An `all_except_closed` rule whose condition is true whenever
`amount` is absent. -/
def ruleC5 : BusinessRule :=
  { id := "amt", name := "Missing amount", category := "DATA_QUALITY",
    severity := "WARNING", description := "",
    condition := leafCond "amount" "is_empty", message := "Amount missing",
    remediation := "", remediation_owner := "Rep", automatable := false,
    applicable_stages := ["all_except_closed"] }

/-- A deal whose `stage` key is explicitly `None`. -/
def dealC5 : Deal := [("stage", .vNull)]

/-- Counterexample to C5 as stated: with `stage = None` the spec's
gate coerces to `""`, proceeds, and fires the (true) condition, but
the code's `evaluate_rule` hits `None.lower()`, swallows the
exception, and returns no violation. -/
theorem c5_stage_gate_counterexample :
    evaluate_rule clk0 ruleC5 dealC5 = none
    ∧ (specEvaluateRule clk0 ruleC5 dealC5).isSome = true :=
  ⟨rfl, rfl⟩

/-- C5 (amended): for string stages the gate behaves exactly as
claimed - sentinel rules skip precisely the four closed stage names
case-insensitively and otherwise proceed to condition evaluation,
non-sentinel rules require exact literal membership - and a missing
stage reads as `""`; but a non-string stage value (including an
explicit `None`) is not coerced: the gate raises and the rule is
skipped.  In particular an `all_except_closed` rule with a true
condition fires for stage `"Discovery"` and never for
`"Closed Won"`. -/
theorem c5_stage_gate_amended :
    (∀ (clk : Clock) (rule : BusinessRule) (d : Deal) (s : String),
        rule.applicable_stages ≠ [] →
        pyGetD d "stage" (.vStr "") = .vStr s →
        ((sentinelAllExceptClosed ∈ rule.applicable_stages →
            (strLower s ∈ closedStageNames → evaluate_rule clk rule d = none)
          ∧ (strLower s ∉ closedStageNames →
              evaluate_rule clk rule d = exceptToNone (evaluateRulePostGate clk rule d)))
        ∧ (sentinelAllExceptClosed ∉ rule.applicable_stages →
            (s ∈ rule.applicable_stages →
              evaluate_rule clk rule d = exceptToNone (evaluateRulePostGate clk rule d))
          ∧ (s ∉ rule.applicable_stages → evaluate_rule clk rule d = none))))
    ∧ (∀ (clk : Clock) (rule : BusinessRule) (d : Deal) (v : Value),
        rule.applicable_stages ≠ [] →
        pyGetD d "stage" (.vStr "") = v →
        (∀ s, v ≠ .vStr s) →
        evaluate_rule clk rule d = none)
    ∧ ((evaluate_rule clk0 ruleC5 [("stage", .vStr "Discovery")]).isSome = true
        ∧ evaluate_rule clk0 ruleC5 [("stage", .vStr "Closed Won")] = none) := by
  refine ⟨fun clk rule d s hne hstage => ?_, fun clk rule d v hne hstage hnotstr => ?_,
    rfl, rfl⟩
  · constructor
    · intro hsent
      constructor
      · intro hclosed
        simp [evaluate_rule, evaluateRuleCore, hne, hstage, hsent, hclosed, exceptToNone]
      · intro hopen
        simp [evaluate_rule, evaluateRuleCore, hne, hstage, hsent, hopen, exceptToNone]
    · intro hsent
      constructor
      · intro hmem
        simp [evaluate_rule, evaluateRuleCore, hne, hstage, hsent, hmem, exceptToNone]
      · intro hmem
        simp [evaluate_rule, evaluateRuleCore, hne, hstage, hsent, hmem, exceptToNone]
  · unfold evaluate_rule evaluateRuleCore
    rw [if_pos hne, hstage]
    cases v with
    | vStr s => exact absurd rfl (hnotstr s)
    | vNull => rfl
    | vBool b => rfl
    | vNum q => rfl
    | vList vs => rfl

/-- Witness for `c5_stage_gate_amended` at concrete stage values. -/
theorem c5_stage_gate_amended_witness :
    evaluate_rule clk0 ruleC5 [("stage", .vStr "Discovery")]
      = exceptToNone (evaluateRulePostGate clk0 ruleC5 [("stage", .vStr "Discovery")])
    ∧ evaluate_rule clk0 ruleC5 [("stage", .vStr "Closed Won")] = none
    ∧ evaluate_rule clk0 ruleC5 dealC5 = none :=
  ⟨((c5_stage_gate_amended.1 clk0 ruleC5 [("stage", .vStr "Discovery")] "Discovery"
      (by decide) rfl).1 (by decide)).2 (by decide),
   ((c5_stage_gate_amended.1 clk0 ruleC5 [("stage", .vStr "Closed Won")] "Closed Won"
      (by decide) rfl).1 (by decide)).1 (by decide),
   c5_stage_gate_amended.2.1 clk0 ruleC5 dealC5 .vNull (by decide) rfl
     (fun s h => Value.noConfusion h)⟩

/-- Dropping filtered-out elements that map to `none` does not change
a `filterMap`. -/
theorem filterMap_filter_of_none (p : BusinessRule → Bool)
    (f : BusinessRule → Option Violation) :
    ∀ (l : List BusinessRule), (∀ x ∈ l, p x = false → f x = none) →
      (l.filter p).filterMap f = l.filterMap f
  | [], _ => rfl
  | x :: l, h => by
      have htail := filterMap_filter_of_none p f l fun y hy => h y (List.mem_cons_of_mem x hy)
      cases hp : p x with
      | true => simp [List.filter_cons, hp, List.filterMap_cons, htail]
      | false =>
          simp [List.filter_cons, hp, List.filterMap_cons, htail,
            h x (List.mem_cons_self x l) hp]

/-- A rule that the stripped-stage pre-filter drops is one the
evaluator's own gate also skips, provided the raw stage string equals
its stripped form. -/
theorem removed_rule_evaluates_none (clk : Clock) (rule : BusinessRule) (d : Deal)
    (s : String) (hstage : d.lookup "stage" = some (.vStr s))
    (hrem : stageFilterKeep s rule = false) :
    evaluate_rule clk rule d = none := by
  have hd : pyGetD d "stage" (.vStr "") = .vStr s := by
    simp [pyGetD, hstage]
  simp [stageFilterKeep] at hrem
  obtain ⟨⟨hne, h2⟩, himp⟩ := hrem
  by_cases hsent : sentinelAllExceptClosed ∈ rule.applicable_stages
  · simp [evaluate_rule, evaluateRuleCore, hne, hd, hsent, himp hsent, exceptToNone]
  · simp [evaluate_rule, evaluateRuleCore, hne, hd, hsent, h2, exceptToNone]

/-- The rule of the C4 counterexample: applicable only to the
whitespace-padded stage literal `"Discovery "`. -/
def ruleC4 : BusinessRule :=
  { id := "padded", name := "Missing amount", category := "DATA_QUALITY",
    severity := "WARNING", description := "",
    condition := leafCond "amount" "is_empty", message := "Amount missing",
    remediation := "", remediation_owner := "Rep", automatable := false,
    applicable_stages := ["Discovery "] }

/-- A deal whose stage carries trailing whitespace. -/
def dealC4 : Deal := [("stage", .vStr "Discovery ")]

/-- Counterexample to C4 as stated: for the padded stage
`"Discovery "`, `analyze_deal`'s pre-filter strips the stage and drops
`ruleC4`, yet the unfiltered evaluator fires it - the two runs
disagree. -/
theorem c4_prefilter_counterexample :
    (analyze_deal clk0 [ruleC4] dealC4).1 = []
    ∧ (evaluate_all_rules clk0 [ruleC4] dealC4).length = 1 :=
  ⟨rfl, rfl⟩

/-- C4 (amended): the stage pre-filter of `analyze_deal` is
violation-preserving - running the pre-filtered rule list equals
running the full list - for every deal whose `stage` is a string equal
to its stripped form (no surrounding whitespace).  The counterexample
above shows the restriction is necessary: `str(stage).strip()` in the
pre-filter versus the raw stage in `evaluate_rule` makes
whitespace-padded stages diverge. -/
theorem c4_prefilter_amended (clk : Clock) (rules : List BusinessRule) (d : Deal)
    (s : String) (hstage : pyGet d "stage" = .vStr s) (htrim : strTrim s = s) :
    (analyze_deal clk rules d).1 = evaluate_all_rules clk rules d := by
  have hlook : d.lookup "stage" = some (.vStr s) := by
    cases h : d.lookup "stage" with
    | none => rw [pyGet, h] at hstage; exact absurd hstage.symm (by simp)
    | some v => rw [pyGet, h] at hstage; simp at hstage; rw [hstage]
  by_cases hs : s = ""
  · subst hs
    simp [analyze_deal, hstage, truthy]
  · have htruthy : truthy (pyGet d "stage") = true := by
      rw [hstage]; simp [truthy, hs]
    have hfilter : get_rules_for_stage rules (.vStr s) = rules.filter (stageFilterKeep s) := by
      simp [get_rules_for_stage, pyStr, htrim]
    have htruthy2 : truthy (Value.vStr s) = true := by simp [truthy, hs]
    unfold analyze_deal
    simp only [hstage, htruthy2, if_true, hfilter]
    unfold evaluate_all_rules
    rw [foldl_collect_eq_filterMap, foldl_collect_eq_filterMap, List.nil_append,
      List.nil_append]
    exact filterMap_filter_of_none (stageFilterKeep s) _ rules fun r _ hrem =>
      removed_rule_evaluates_none clk r d s hlook hrem

/-- Witness for `c4_prefilter_amended` at a whitespace-free stage. -/
theorem c4_prefilter_amended_witness :
    (analyze_deal clk0 [ruleC4] [("stage", .vStr "Discovery")]).1
      = evaluate_all_rules clk0 [ruleC4] [("stage", .vStr "Discovery")] :=
  c4_prefilter_amended clk0 [ruleC4] [("stage", .vStr "Discovery")] "Discovery" rfl
    (by decide)

mutual

/-- The condition tree with every `value` key removed: the part of the
tree that a threshold override must leave untouched. -/
def eraseValues : Cond → Cond
  | .node f op _ aL nL =>
      .node f op none
        (match aL with | some cs => some (eraseValuesList cs) | none => none)
        (match nL with | some cs => some (eraseValuesList cs) | none => none)

def eraseValuesList : CondList → CondList
  | .nil => .nil
  | .cons c cs => .cons (eraseValues c) (eraseValuesList cs)

end

mutual

/-- The preorder list of `value` keys (present or absent) of every
node of a condition tree. -/
def valuesList : Cond → List (Option Value)
  | .node _ _ v aL nL =>
      v :: ((match aL with | some cs => condValuesList cs | none => [])
        ++ (match nL with | some cs => condValuesList cs | none => []))

def condValuesList : CondList → List (Option Value)
  | .nil => []
  | .cons c cs => valuesList c ++ condValuesList cs

end

mutual

/-- The override rewrite changes nothing outside the `value` keys. -/
theorem erase_apply_overrides (c : Cond) (ov : List (String × Value)) :
    eraseValues (apply_overrides_to_condition c ov) = eraseValues c := by
  cases c with
  | node f op v aL nL =>
      cases aL with
      | none =>
          cases nL with
          | none => simp [apply_overrides_to_condition, eraseValues]
          | some csn =>
              simp [apply_overrides_to_condition, eraseValues,
                erase_apply_overrides_list csn ov]
      | some csa =>
          cases nL with
          | none =>
              simp [apply_overrides_to_condition, eraseValues,
                erase_apply_overrides_list csa ov]
          | some csn =>
              simp [apply_overrides_to_condition, eraseValues,
                erase_apply_overrides_list csa ov, erase_apply_overrides_list csn ov]

theorem erase_apply_overrides_list (cs : CondList) (ov : List (String × Value)) :
    eraseValuesList (applyOverridesToCondList cs ov) = eraseValuesList cs := by
  cases cs with
  | nil => rfl
  | cons c rest =>
      simp [applyOverridesToCondList, eraseValuesList, erase_apply_overrides c ov,
        erase_apply_overrides_list rest ov]

end

mutual

/-- With an override carrying a `value` key, the rewrite replaces the
`value` of every node that has one and invents none elsewhere. -/
theorem values_apply_overrides (c : Cond) (ov : List (String × Value)) (w : Value)
    (h : ov.lookup "value" = some w) :
    valuesList (apply_overrides_to_condition c ov)
      = (valuesList c).map (Option.map fun _ => w) := by
  cases c with
  | node f op v aL nL =>
      cases aL with
      | none =>
          cases nL with
          | none => cases v <;> simp [apply_overrides_to_condition, valuesList, h]
          | some csn =>
              cases v <;>
                simp [apply_overrides_to_condition, valuesList, h,
                  values_apply_overrides_list csn ov w h]
      | some csa =>
          cases nL with
          | none =>
              cases v <;>
                simp [apply_overrides_to_condition, valuesList, h,
                  values_apply_overrides_list csa ov w h]
          | some csn =>
              cases v <;>
                simp [apply_overrides_to_condition, valuesList, h,
                  values_apply_overrides_list csa ov w h,
                  values_apply_overrides_list csn ov w h]

theorem values_apply_overrides_list (cs : CondList) (ov : List (String × Value))
    (w : Value) (h : ov.lookup "value" = some w) :
    condValuesList (applyOverridesToCondList cs ov)
      = (condValuesList cs).map (Option.map fun _ => w) := by
  cases cs with
  | nil => rfl
  | cons c rest =>
      simp [applyOverridesToCondList, condValuesList, values_apply_overrides c ov w h,
        values_apply_overrides_list rest ov w h]

end

/-- The global rule of the C3 scenario. -/
def ruleC3 : BusinessRule :=
  { id := "big_amount", name := "Large deal", category := "FORECASTING",
    severity := "INFO", description := "",
    condition := allCond [leafCondV "amount" "greater_than" (.vNum 10000)],
    message := "Large deal", remediation := "", remediation_owner := "Rep",
    automatable := false }

/-- C3: when the winning override carries `threshold_overrides` with a
`value` key, resolution returns a new rule whose condition tree has
the `value` of every node that already had one replaced by the
override value, recursively through `all`/`any` nesting, leaving
value-less nodes and everything else untouched; in the concrete
scenario the nested leaf becomes `99999` while the original rule
object still holds `10000` (the rewrite only ever builds a new tree
from a deep copy). -/
theorem c3_threshold_override_propagation :
    (∀ (rule : BusinessRule) (ov : List (String × Value)) (w : Value),
        ov.lookup "value" = some w →
        eraseValues (apply_threshold_overrides rule ov).condition
            = eraseValues rule.condition
          ∧ valuesList (apply_threshold_overrides rule ov).condition
            = (valuesList rule.condition).map (Option.map fun _ => w))
    ∧ (apply_threshold_overrides ruleC3 [("value", .vNum 99999)]).condition
        = allCond [leafCondV "amount" "greater_than" (.vNum 99999)]
    ∧ ruleC3.condition = allCond [leafCondV "amount" "greater_than" (.vNum 10000)] := by
  refine ⟨fun rule ov w h => ⟨?_, ?_⟩, rfl, rfl⟩
  · exact erase_apply_overrides rule.condition ov
  · exact values_apply_overrides rule.condition ov w h

/-- Witness for `c3_threshold_override_propagation` at the concrete
override `{value: 99999}`. -/
theorem c3_threshold_override_propagation_witness :
    eraseValues (apply_threshold_overrides ruleC3 [("value", .vNum 99999)]).condition
      = eraseValues ruleC3.condition
    ∧ valuesList (apply_threshold_overrides ruleC3 [("value", .vNum 99999)]).condition
      = (valuesList ruleC3.condition).map (Option.map fun _ => (Value.vNum 99999)) :=
  c3_threshold_override_propagation.1 ruleC3 [("value", .vNum 99999)] (.vNum 99999) rfl

theorem insertOverrides_cons (m : String → Option OverrideData) (row : OverrideRow)
    (rows : List OverrideRow) (src : String) :
    insertOverrides m (row :: rows) src
      = insertOverrides
          (fun k => if k = row.globalRuleId then
              some { enabled := row.enabled,
                     threshold_overrides := row.thresholdOverrides, source := src }
            else m k)
          rows src := rfl

/-- Rows that never mention a rule id leave its dict entry alone. -/
theorem insertOverrides_not_mem (src k : String) :
    ∀ (rows : List OverrideRow) (m : String → Option OverrideData),
      (∀ row ∈ rows, row.globalRuleId ≠ k) →
      insertOverrides m rows src k = m k
  | [], _, _ => rfl
  | row :: rows, m, h => by
      rw [insertOverrides_cons,
        insertOverrides_not_mem src k rows _
          (fun r hr => h r (List.mem_cons_of_mem _ hr))]
      exact if_neg fun he => (h row (List.mem_cons_self _ _)) he.symm

/-- Once some row of the batch carries the rule id, the entry the
batch leaves behind is independent of what was there before. -/
theorem insertOverrides_indep (src k : String) :
    ∀ (rows : List OverrideRow) (m m2 : String → Option OverrideData),
      (∃ row ∈ rows, row.globalRuleId = k) →
      insertOverrides m rows src k = insertOverrides m2 rows src k
  | [], _, _, h => absurd h (by simp)
  | row :: rows, m, m2, h => by
      rw [insertOverrides_cons, insertOverrides_cons]
      by_cases hex : ∃ r ∈ rows, r.globalRuleId = k
      · exact insertOverrides_indep src k rows _ _ hex
      · have hnone : ∀ r ∈ rows, r.globalRuleId ≠ k :=
          fun r hr hk => hex ⟨r, hr, hk⟩
        have hrowk : row.globalRuleId = k := by
          rcases h with ⟨r, hr, hrk⟩
          rcases List.mem_cons.mp hr with rfl | hmem
          · exact hrk
          · exact absurd ⟨r, hmem, hrk⟩ hex
        rw [insertOverrides_not_mem src k rows _ hnone,
          insertOverrides_not_mem src k rows _ hnone]
        simp [hrowk]

/-- C2: a user-scope override fully supersedes any org-scope override
for the same global rule id - the loaded entry is exactly what the
user rows alone would produce - and when the winning override is
disabled, no rule with that id survives from the global list (any
survivor with that id can only be a custom rule). -/
theorem c2_override_precedence :
    (∀ (uid oid : String) (orgRowsFor userRowsFor : String → List OverrideRow)
        (rid : String),
        (∃ row ∈ userRowsFor uid, row.globalRuleId = rid) →
        load_context (some uid) (some oid) orgRowsFor userRowsFor rid
          = insertOverrides (fun _ => none) (userRowsFor uid) "user" rid)
    ∧ (∀ (globalRules customRules : List BusinessRule)
          (overrides : String → Option OverrideData) (rid : String)
          (ov : OverrideData),
        overrides rid = some ov → ov.enabled = false →
        ∀ r ∈ get_effective_rules globalRules overrides customRules,
          r.id = rid → r ∈ customRules) := by
  constructor
  · intro uid oid orgF userF rid h
    unfold load_context
    simp only [Option.some_ne_none, false_and, if_false]
    exact insertOverrides_indep "user" rid (userF uid) _ _ h
  · intro globalRules customRules overrides rid ov hov hdis r hr hid
    unfold get_effective_rules at hr
    rcases List.mem_append.mp hr with hmem | hmem
    · exfalso
      rcases List.mem_filterMap.mp hmem with ⟨g, hg, hprod⟩
      by_cases hgid : g.id = rid
      · rw [hgid, hov] at hprod
        simp [hdis] at hprod
      · apply hgid
        rw [← hid]
        cases hlook : overrides g.id with
        | none =>
            rw [hlook] at hprod
            simp at hprod
            rw [← hprod]
        | some ov2 =>
            rw [hlook] at hprod
            by_cases he : ov2.enabled = false
            · simp [he] at hprod
            · simp [he] at hprod
              cases hth : ov2.threshold_overrides with
              | none =>
                  rw [hth] at hprod
                  simp at hprod
                  rw [← hprod]
              | some kvs =>
                  rw [hth] at hprod
                  cases kvs with
                  | nil =>
                      simp at hprod
                      rw [← hprod]
                  | cons kv kvs =>
                      simp at hprod
                      rw [← hprod]
                      rfl
    · exact hmem

/-- The global rule of the C2 scenario. -/
def gRuleC2 : BusinessRule :=
  { id := "R1", name := "Some rule", category := "DATA_QUALITY",
    severity := "WARNING", description := "",
    condition := leafCond "amount" "is_empty", message := "m",
    remediation := "", remediation_owner := "Rep", automatable := false }

/-- Org-scope override rows of the C2 scenario: `{enabled: true}`. -/
def orgFC2 : String → List OverrideRow := fun _ =>
  [{ globalRuleId := "R1", enabled := true, thresholdOverrides := none }]

/-- User-scope override rows of the C2 scenario: `{enabled: false}`. -/
def userFC2 : String → List OverrideRow := fun _ =>
  [{ globalRuleId := "R1", enabled := false, thresholdOverrides := none }]

/-- Witness for `c2_override_precedence`: with a disabling user
override and an enabling org override for `R1`, the loaded entry is
the user's one and the global rule vanishes from the effective
list. -/
theorem c2_override_precedence_witness :
    load_context (some "u") (some "o") orgFC2 userFC2 "R1"
      = insertOverrides (fun _ => none) (userFC2 "u") "user" "R1"
    ∧ gRuleC2 ∉ get_effective_rules [gRuleC2]
        (load_context (some "u") (some "o") orgFC2 userFC2) [] :=
  ⟨c2_override_precedence.1 "u" "o" orgFC2 userFC2 "R1"
      ⟨{ globalRuleId := "R1", enabled := false, thresholdOverrides := none },
        by simp [userFC2], rfl⟩,
   fun hmem => absurd
     (c2_override_precedence.2 [gRuleC2] []
        (load_context (some "u") (some "o") orgFC2 userFC2) "R1"
        { enabled := false, threshold_overrides := none, source := "user" }
        rfl rfl gRuleC2 hmem rfl)
     (List.not_mem_nil _)⟩

end RevTrust
